import Mathlib

/-!
Verification of the paybot X402 payment protocol core against its
natural-language specification.

The definitions below are a shallow embedding of the TypeScript sources:

* `packages/x402/src/abis.ts` (types section): `PaymentStatus`, `PaymentRecord`
* `packages/x402/src/client.ts`: `X402Client.computeStatus`
* `packages/x402/src/protocol.ts`: payload types, `encodePaymentPayload`,
  `decodePaymentPayload`, `validatePaymentPayload`, `create402Response`
* the `PaymentFacilitator` class: `verifyPayment`, `settlePayment`,
  `monitorPayment` / poll tick / `stopMonitoring`
* `packages/x402/src/middleware.ts`: `x402Middleware`
* the X402 facilitator Hono server: its registered route table

Conventions used throughout the embedding:

* JS strings are Lean `String`s; a "missing" (undefined) string-valued field
  of a decoded JSON object is modelled as `""` exactly where the source only
  performs a JS-truthiness test (`!x`), which identifies `undefined` with `""`.
* A field holding an object that may be absent is `Option`-valued
  (JS truthiness on objects only distinguishes presence).
* JS `bigint` timestamps and block numbers are `Nat` (they are non-negative
  on-chain quantities); `BigInt(string)` conversion, which can throw, is the
  Option-valued function `jsBigInt`.
* Code that can throw is modelled with `Option`/`Except`; external effects
  (RPC submission, receipt waits, key parsing) are oracle parameters so that
  theorems quantify over every possible behaviour of the outside world.
-/

namespace Paybot

/-! ## Payment status (packages/x402/src/abis.ts types, client.ts) -/

/-- The `enum PaymentStatus` from the x402 type definitions. -/
inductive PaymentStatus where
  | PENDING
  | CLAIMED
  | REFUNDED
  | EXPIRED
deriving DecidableEq, Repr

/-- On-chain `PaymentRecord` as read back from the escrow contract
(`payer`, `recipient`, `amount`, `expiresAt`, `claimed`, `refunded`). -/
structure PaymentRecord where
  payer : String
  recipient : String
  amount : Nat
  expiresAt : Nat
  claimed : Bool
  refunded : Bool
deriving DecidableEq, Repr

/-- Embedding of `X402Client.computeStatus` (client.ts lines 221-229), verbatim branch
structure: claimed, then refunded, then expiry comparison, else pending. -/
def computeStatus (record : PaymentRecord) (currentTime : Nat) : PaymentStatus :=
  if record.claimed then .CLAIMED
  else if record.refunded then .REFUNDED
  else if currentTime > record.expiresAt then .EXPIRED
  else .PENDING

/-! ## Wire payload types (packages/x402/src/protocol.ts) -/

/-- The constant `X402_VERSION = 1` from protocol.ts. -/
def X402_VERSION : Nat := 1

/-- A `{v, r, s}` ECDSA signature component object. -/
structure SignatureVRS where
  v : Nat
  r : String
  s : String
deriving DecidableEq, Repr

/-- The `EVMPermitPayload` interface from protocol.ts.  The two signature fields are
`Option`-valued: `none` models the JS property being `undefined`, which is
all `validatePaymentPayload`'s truthiness test can observe. -/
structure EVMPermitPayload where
  paymentId : String
  payer : String
  recipient : String
  amount : String
  duration : Nat
  deadline : String
  nonce : String
  permitSignature : Option SignatureVRS
  paymentSignature : Option SignatureVRS
deriving DecidableEq, Repr

/-- The `PaymentPayload` interface from protocol.ts (the X-PAYMENT header content). -/
structure PaymentPayload where
  x402Version : Nat
  scheme : String
  network : String
  payload : EVMPermitPayload
deriving DecidableEq, Repr

/-- Result type of `validatePaymentPayload`. -/
structure ValidationResult where
  valid : Bool
  error : Option String
deriving DecidableEq, Repr

/-- Embedding of `validatePaymentPayload` (protocol.ts lines 210-235).  Checks, in source
order: protocol version, scheme membership, truthiness of
`paymentId`/`payer`/`recipient`, and truthiness of the two signature
objects.  The `v`/`r`/`s` components of a present signature are never
inspected by the source. -/
def validatePaymentPayload (payload : PaymentPayload) : ValidationResult :=
  if payload.x402Version ≠ X402_VERSION then
    { valid := false, error := some ("Unsupported version: " ++ toString payload.x402Version) }
  else if payload.scheme ≠ "evm-permit" ∧ payload.scheme ≠ "evm-legacy" then
    { valid := false, error := some ("Unsupported scheme: " ++ payload.scheme) }
  else if payload.payload.paymentId = "" ∨ payload.payload.payer = "" ∨
      payload.payload.recipient = "" then
    { valid := false, error := some "Missing required fields in payload" }
  else if payload.payload.permitSignature = none ∨ payload.payload.paymentSignature = none then
    { valid := false, error := some "Missing signatures" }
  else
    { valid := true, error := none }

/-! ## Transport encoding (protocol.ts `encodePaymentPayload` / `decodePaymentPayload`)

`encodePaymentPayload` is `btoa(JSON.stringify(payload))`;
`decodePaymentPayload` is `JSON.parse(atob(encoded))`.  We embed base64 over
byte lists and a JSON value grammar with a renderer (the deterministic
`JSON.stringify` output: fields in insertion order, no whitespace, no
escaping needed for well-formed strings) and a recursive-descent parser.
Inputs on which `atob`/`JSON.parse` throw are modelled as `none`. -/

/-- The `{` character, written by code point. -/
def lbrace : Char := Char.ofNat 123

/-- The `}` character, written by code point. -/
def rbrace : Char := Char.ofNat 125

/-- Base64 alphabet: index 0-63 to character. -/
def b64Char (n : Nat) : Char :=
  if n < 26 then Char.ofNat (65 + n)
  else if n < 52 then Char.ofNat (97 + (n - 26))
  else if n < 62 then Char.ofNat (48 + (n - 52))
  else if n = 62 then '+'
  else '/'

/-- Base64 alphabet: character back to index; `none` for characters outside
the alphabet (on which `atob` throws). -/
def b64Index (c : Char) : Option Nat :=
  if 65 ≤ c.toNat ∧ c.toNat ≤ 90 then some (c.toNat - 65)
  else if 97 ≤ c.toNat ∧ c.toNat ≤ 122 then some (c.toNat - 97 + 26)
  else if 48 ≤ c.toNat ∧ c.toNat ≤ 57 then some (c.toNat - 48 + 52)
  else if c = '+' then some 62
  else if c = '/' then some 63
  else none

/-- Model of `btoa`: encode a byte list (each < 256) in base64 with `=` padding. -/
def base64encode : List Nat → List Char
  | [] => []
  | [b1] => [b64Char (b1 / 4), b64Char (b1 % 4 * 16), '=', '=']
  | [b1, b2] =>
    [b64Char (b1 / 4), b64Char (b1 % 4 * 16 + b2 / 16), b64Char (b2 % 16 * 4), '=']
  | b1 :: b2 :: b3 :: restBytes =>
    b64Char (b1 / 4) :: b64Char (b1 % 4 * 16 + b2 / 16) ::
      b64Char (b2 % 16 * 4 + b3 / 64) :: b64Char (b3 % 64) :: base64encode restBytes

/-- Model of `atob`: decode base64 (groups of four characters, `=` padding only in the
final group).  Returns `none` where `atob` throws. -/
def base64decode : List Char → Option (List Nat)
  | [] => some []
  | c1 :: c2 :: c3 :: c4 :: restChars =>
    if restChars = [] ∧ c3 = '=' ∧ c4 = '=' then
      match b64Index c1, b64Index c2 with
      | some s1, some s2 => some [s1 * 4 + s2 / 16]
      | _, _ => none
    else if restChars = [] ∧ c4 = '=' then
      match b64Index c1, b64Index c2, b64Index c3 with
      | some s1, some s2, some s3 => some [s1 * 4 + s2 / 16, s2 % 16 * 16 + s3 / 4]
      | _, _, _ => none
    else
      match b64Index c1, b64Index c2, b64Index c3, b64Index c4, base64decode restChars with
      | some s1, some s2, some s3, some s4, some bs =>
        some ((s1 * 4 + s2 / 16) :: (s2 % 16 * 16 + s3 / 4) :: (s3 % 4 * 64 + s4) :: bs)
      | _, _, _, _, _ => none
  | _ => none

mutual
/-- JSON values as produced by `JSON.stringify` on payment payloads:
strings, non-negative integers, and objects with ordered fields. -/
inductive Json where
  | str : String → Json
  | num : Nat → Json
  | obj : JsonFields → Json
deriving DecidableEq, Repr
inductive JsonFields where
  | nil : JsonFields
  | cons : String → Json → JsonFields → JsonFields
deriving DecidableEq, Repr
end

/-- Decimal digit to character. -/
def digitChar (d : Nat) : Char := Char.ofNat (48 + d)

/-- Decimal rendering of a natural number (`JSON.stringify` of an integer). -/
def natToChars (n : Nat) : List Char :=
  if n < 10 then [digitChar n]
  else natToChars (n / 10) ++ [digitChar (n % 10)]
termination_by n
decreasing_by exact Nat.div_lt_self (by omega) (by omega)

/-- A JSON string literal: quote, contents, quote (well-formed strings need
no escapes). -/
def renderStringL (s : String) : List Char := '"' :: (s.data ++ ['"'])

mutual
/-- Rendering per `JSON.stringify` for the value grammar, to a character list. -/
def renderJsonL : Json → List Char
  | .str s => renderStringL s
  | .num n => natToChars n
  | .obj .nil => [lbrace, rbrace]
  | .obj (.cons k v fs) =>
    lbrace :: (renderStringL k ++ ':' :: (renderJsonL v ++ (renderFieldsL fs ++ [rbrace])))
def renderFieldsL : JsonFields → List Char
  | .nil => []
  | .cons k v fs => ',' :: (renderStringL k ++ ':' :: (renderJsonL v ++ renderFieldsL fs))
end

/-- String contents parser: characters up to the closing quote. -/
def parseStringBody : List Char → Option (List Char × List Char)
  | [] => none
  | c :: cs =>
    if c = '"' then some ([], cs)
    else
      match parseStringBody cs with
      | some (sBody, restChars) => some (c :: sBody, restChars)
      | none => none

/-- Greedy decimal digit parser with accumulator. -/
def parseDigits (acc : Nat) : List Char → Nat × List Char
  | [] => (acc, [])
  | c :: cs =>
    if c.isDigit then parseDigits (acc * 10 + (c.toNat - 48)) cs else (acc, c :: cs)

mutual
/-- Recursive-descent JSON parser; fuel bounds the recursion depth. -/
def parseJsonF : Nat → List Char → Option (Json × List Char)
  | 0, _ => none
  | _ + 1, [] => none
  | fuel + 1, c :: cs =>
    if c = '"' then
      match parseStringBody cs with
      | some (sBody, restChars) => some (.str (String.mk sBody), restChars)
      | none => none
    else if c.isDigit then
      some (.num (parseDigits (c.toNat - 48) cs).1, (parseDigits (c.toNat - 48) cs).2)
    else if c = lbrace then
      match cs with
      | [] => none
      | d :: ds =>
        if d = rbrace then some (.obj .nil, ds)
        else
          match parseFieldsF fuel (d :: ds) with
          | some (fs, restChars) => some (.obj fs, restChars)
          | none => none
    else none
def parseFieldsF : Nat → List Char → Option (JsonFields × List Char)
  | 0, _ => none
  | _ + 1, [] => none
  | fuel + 1, c :: cs =>
    if c = '"' then
      match parseStringBody cs with
      | some (kBody, r1) =>
        match r1 with
        | [] => none
        | c2 :: r2 =>
          if c2 = ':' then
            match parseJsonF fuel r2 with
            | some (v, r3) =>
              match r3 with
              | [] => none
              | c3 :: r4 =>
                if c3 = ',' then
                  match parseFieldsF fuel r4 with
                  | some (fs, r5) => some (.cons (String.mk kBody) v fs, r5)
                  | none => none
                else if c3 = rbrace then some (.cons (String.mk kBody) v .nil, r4)
                else none
            | none => none
          else none
      | none => none
    else none
end

/-- Field lookup by name, modelling JS property access on a parsed object. -/
def getField : JsonFields → String → Option Json
  | .nil, _ => none
  | .cons k v fs, name => if k = name then some v else getField fs name

/-- JSON object for a `{v, r, s}` signature. -/
def sigToJson (sg : SignatureVRS) : Json :=
  .obj (.cons "v" (.num sg.v) (.cons "r" (.str sg.r) (.cons "s" (.str sg.s) .nil)))

/-- Append a signature field when present; `JSON.stringify` drops properties
whose value is `undefined`. -/
def optSigField (name : String) (o : Option SignatureVRS) (restFields : JsonFields) : JsonFields :=
  match o with
  | none => restFields
  | some sg => .cons name (sigToJson sg) restFields

/-- JSON object for an `EVMPermitPayload`, fields in interface order. -/
def evmToJson (e : EVMPermitPayload) : Json :=
  .obj (.cons "paymentId" (.str e.paymentId)
    (.cons "payer" (.str e.payer)
      (.cons "recipient" (.str e.recipient)
        (.cons "amount" (.str e.amount)
          (.cons "duration" (.num e.duration)
            (.cons "deadline" (.str e.deadline)
              (.cons "nonce" (.str e.nonce)
                (optSigField "permitSignature" e.permitSignature
                  (optSigField "paymentSignature" e.paymentSignature .nil)))))))))

/-- JSON object for a `PaymentPayload`, fields in interface order. -/
def payloadToJson (p : PaymentPayload) : Json :=
  .obj (.cons "x402Version" (.num p.x402Version)
    (.cons "scheme" (.str p.scheme)
      (.cons "network" (.str p.network)
        (.cons "payload" (evmToJson p.payload) .nil))))

/-- Read a `{v, r, s}` signature back off a parsed JSON value. -/
def jsonToSig : Json → Option SignatureVRS
  | .obj fs =>
    match getField fs "v", getField fs "r", getField fs "s" with
    | some (.num v), some (.str r), some (.str s) => some ⟨v, r, s⟩
    | _, _, _ => none
  | _ => none

/-- Read an optional signature property: an absent property is `undefined`
(signature `none`); a present but non-signature value fails the typed read. -/
def readSigField (fs : JsonFields) (name : String) : Option (Option SignatureVRS) :=
  match getField fs name with
  | none => some none
  | some j =>
    match jsonToSig j with
    | some sg => some (some sg)
    | none => none

/-- Typed read of an `EVMPermitPayload` from a parsed JSON value.  The
TypeScript source casts `JSON.parse`'s result without checking; values that
do not have the payload's shape are modelled as a decode failure here (in
the source they surface as a thrown property access or a validation
failure — observationally the same `valid:false` outcome). -/
def jsonToEvm : Json → Option EVMPermitPayload
  | .obj fs =>
    match getField fs "paymentId", getField fs "payer", getField fs "recipient",
        getField fs "amount", getField fs "duration", getField fs "deadline",
        getField fs "nonce", readSigField fs "permitSignature",
        readSigField fs "paymentSignature" with
    | some (.str pid), some (.str py), some (.str rc), some (.str am), some (.num du),
        some (.str dl), some (.str no), some ps, some qs =>
      some ⟨pid, py, rc, am, du, dl, no, ps, qs⟩
    | _, _, _, _, _, _, _, _, _ => none
  | _ => none

/-- Typed read of a `PaymentPayload` from a parsed JSON value. -/
def jsonToPayload : Json → Option PaymentPayload
  | .obj fs =>
    match getField fs "x402Version", getField fs "scheme", getField fs "network",
        getField fs "payload" with
    | some (.num ver), some (.str sch), some (.str net), some pj =>
      match jsonToEvm pj with
      | some evm => some ⟨ver, sch, net, evm⟩
      | none => none
    | _, _, _, _ => none
  | _ => none

/-- Embedding of `encodePaymentPayload` (protocol.ts lines 135-144):
base64 of the payload's JSON. -/
def encodePaymentPayload (payload : PaymentPayload) : String :=
  String.mk (base64encode ((renderJsonL (payloadToJson payload)).map Char.toNat))

/-- Embedding of `decodePaymentPayload` (protocol.ts lines 149-159):
`JSON.parse(atob(encoded))`, `none` where either throws or where the parsed
value does not have the payload shape (see `jsonToEvm`). -/
def decodePaymentPayload (encoded : String) : Option PaymentPayload :=
  match base64decode encoded.data with
  | none => none
  | some bytes =>
    let chars := bytes.map Char.ofNat
    match parseJsonF (chars.length + 1) chars with
    | some (j, []) => jsonToPayload j
    | _ => none

/-! ### Well-formedness

A payload is well-formed when its string fields survive `JSON.stringify`
unescaped and `btoa` unmodified: printable latin-1 without `"` or `\`.
This is the "well-formed payload" of the round-trip property (payment ids,
addresses and amounts are hex/decimal ASCII strings). -/

/-- Characters that render into JSON literally and are `btoa`-encodable. -/
def wfChar (c : Char) : Bool :=
  decide (32 ≤ c.toNat) && decide (c.toNat < 256) && !(c = '"') && !(c = '\\')

/-- All characters of the string are `wfChar`. -/
def wfStr (s : String) : Bool := s.data.all wfChar

mutual
/-- Well-formedness of a JSON value: every string is `wfStr`. -/
def wfJson : Json → Bool
  | .str s => wfStr s
  | .num _ => true
  | .obj fs => wfFields fs
def wfFields : JsonFields → Bool
  | .nil => true
  | .cons k v fs => wfStr k && wfJson v && wfFields fs
end

/-- Well-formed payment payload: all string fields are `wfStr`. -/
def wellFormedPayload (p : PaymentPayload) : Bool :=
  wfStr p.scheme && wfStr p.network &&
  wfStr p.payload.paymentId && wfStr p.payload.payer && wfStr p.payload.recipient &&
  wfStr p.payload.amount && wfStr p.payload.deadline && wfStr p.payload.nonce &&
  (match p.payload.permitSignature with
   | none => true
   | some sg => wfStr sg.r && wfStr sg.s) &&
  (match p.payload.paymentSignature with
   | none => true
   | some sg => wfStr sg.r && wfStr sg.s)

/-! ### Parser fuel measures and digit-list helpers -/

mutual
/-- Fuel sufficient for `parseJsonF` on the rendering of a value. -/
def jsonFuel : Json → Nat
  | .str _ => 1
  | .num _ => 1
  | .obj fs => fieldsFuel fs + 1
def fieldsFuel : JsonFields → Nat
  | .nil => 1
  | .cons _ v fs => jsonFuel v + fieldsFuel fs + 1
end

/-- The input does not begin with a decimal digit (so a greedy number parse
stops exactly at its end). -/
def notDigitStart : List Char → Bool
  | [] => true
  | c :: _ => !c.isDigit

/-- One step of decimal accumulation, as performed by `parseDigits`. -/
def dstep (a : Nat) (c : Char) : Nat := a * 10 + (c.toNat - 48)

/-! ## PaymentFacilitator.verifyPayment -/

/-- The `VerifyResponse` interface from protocol.ts; absent optional properties are
`none`. -/
structure VerifyResponse where
  valid : Bool
  paymentId : Option String
  payer : Option String
  amount : Option String
  error : Option String
deriving DecidableEq, Repr

/-- Embedding of `PaymentFacilitator.verifyPayment` (facilitator source lines 235-268):
decode, validate, and either surface the failure as `{valid:false, error}`
(the `catch` branch's `error.message` is modelled by a fixed string) or
return the payload's `paymentId`/`payer`/`amount`. -/
def verifyPayment (encodedPayment : String) : VerifyResponse :=
  match decodePaymentPayload encodedPayment with
  | none =>
    { valid := false, paymentId := none, payer := none, amount := none,
      error := some "Unknown error" }
  | some payload =>
    let validation := validatePaymentPayload payload
    if validation.valid = false then
      { valid := false, paymentId := none, payer := none, amount := none,
        error := validation.error }
    else
      { valid := true, paymentId := some payload.payload.paymentId,
        payer := some payload.payload.payer, amount := some payload.payload.amount,
        error := none }

/-! ## PaymentFacilitator.settlePayment

The blockchain boundary (`privateKeyToAccount`, `writeContract`,
`waitForTransactionReceipt`) is an oracle `ChainEnv`, so theorems quantify
over every behaviour of the key parser, the RPC node and the chain; a
thrown JS error is the `Except.error` branch carrying its message. -/

/-- The `X402Config` interface from the x402 type definitions. -/
structure X402Config where
  rpcUrl : String
  chainId : Nat
  tokenAddress : String
  escrowAddress : String
deriving DecidableEq, Repr

/-- The single `writeContract` call `settlePayment` makes: target address,
function, and the `createPaymentWithPermit` argument list. -/
structure SettleTx where
  address : String
  functionName : String
  paymentId : String
  payer : String
  recipient : String
  amount : Int
  duration : Int
  deadline : Int
  paymentSigV : Nat
  paymentSigR : String
  paymentSigS : String
  permitSigV : Nat
  permitSigR : String
  permitSigS : String
deriving DecidableEq, Repr

/-- Transaction receipt: viem's `status === "success"` and block number. -/
structure TxReceipt where
  statusSuccess : Bool
  blockNumber : Nat
deriving DecidableEq, Repr

/-- Oracle for the blockchain boundary of `settlePayment`. -/
structure ChainEnv where
  parseKey : String → Except String String
  submitTx : SettleTx → Except String String
  waitForReceipt : String → Except String TxReceipt

/-- The `SettleResponse` interface from protocol.ts. -/
structure SettleResponse where
  txHash : String
  paymentId : String
  settled : Bool
  blockNumber : Option String
  error : Option String
deriving DecidableEq, Repr

/-- Decimal value of a digit list. -/
def decimalVal (ds : List Char) : Nat := ds.foldl dstep 0

/-- JS `BigInt(string)`: empty string is `0`, optional sign then decimal
digits; `none` where `BigInt` throws.  (Whitespace trimming and the
`0x`/`0o`/`0b` prefixes accepted by JS cannot occur in the payloads under
study and are not modelled.) -/
def jsBigInt (s : String) : Option Int :=
  match s.data with
  | [] => some 0
  | '-' :: ds =>
    if ds ≠ [] ∧ ds.all Char.isDigit then some (-(decimalVal ds : Int)) else none
  | ds => if ds.all Char.isDigit then some ((decimalVal ds : Int)) else none

/-- The failure response literal of `settlePayment`:
`{txHash: "0x0", paymentId: "0x0", settled: false, error}`. -/
def failSettle (e : Option String) : SettleResponse :=
  { txHash := "0x0", paymentId := "0x0", settled := false, blockNumber := none, error := e }

/-- The `createPaymentWithPermit` transaction built from a decoded payload. -/
def settleTxOf (config : X402Config) (evm : EVMPermitPayload)
    (amountInt deadlineInt : Int) (paymentSig permitSig : SignatureVRS) : SettleTx :=
  { address := config.escrowAddress, functionName := "createPaymentWithPermit",
    paymentId := evm.paymentId, payer := evm.payer, recipient := evm.recipient,
    amount := amountInt, duration := (evm.duration : Int), deadline := deadlineInt,
    paymentSigV := paymentSig.v, paymentSigR := paymentSig.r, paymentSigS := paymentSig.s,
    permitSigV := permitSig.v, permitSigR := permitSig.r, permitSigS := permitSig.s }

/-- Embedding of `PaymentFacilitator.settlePayment` (facilitator source lines 276-389).
Returns the response together with the list of submitted transactions
(the trace of `writeContract` calls).  Branches in source order: re-verify;
re-decode; `privateKeyToAccount`; argument construction (field access on
the signature objects and `BigInt` conversion, both of which can throw and
then land in the outer `catch`); `writeContract`; receipt wait; receipt
mapping.  Every thrown error is caught and mapped to `failSettle`. -/
def settlePayment (env : ChainEnv) (config : X402Config)
    (encodedPayment facilitatorPrivateKey : String) : SettleResponse × List SettleTx :=
  let verification := verifyPayment encodedPayment
  if verification.valid = false then (failSettle verification.error, [])
  else
    match decodePaymentPayload encodedPayment with
    | none => (failSettle (some "Unknown settlement error"), [])
    | some payload =>
      let evm := payload.payload
      match env.parseKey facilitatorPrivateKey with
      | .error e => (failSettle (some e), [])
      | .ok _facilitatorAddress =>
        match evm.paymentSignature, evm.permitSignature with
        | some paymentSig, some permitSig =>
          match jsBigInt evm.amount, jsBigInt evm.deadline with
          | some amountInt, some deadlineInt =>
            let tx := settleTxOf config evm amountInt deadlineInt paymentSig permitSig
            match env.submitTx tx with
            | .error e => (failSettle (some e), [tx])
            | .ok txHash =>
              match env.waitForReceipt txHash with
              | .error e => (failSettle (some e), [tx])
              | .ok receipt =>
                ({ txHash := txHash, paymentId := evm.paymentId,
                   settled := receipt.statusSuccess,
                   blockNumber := some (toString receipt.blockNumber),
                   error := none }, [tx])
          | _, _ => (failSettle (some "Unknown settlement error"), [])
        | _, _ => (failSettle (some "Unknown settlement error"), [])

/-! ## GateMiddleware (packages/x402/src/middleware.ts) -/

/-- The `PaymentRequirements` interface from protocol.ts; optional properties are
`Option`-valued. -/
structure PaymentRequirements where
  scheme : String
  network : String
  maxAmountRequired : String
  resource : String
  description : Option String
  mimeType : Option String
  payTo : String
  asset : String
  maxTimeoutSeconds : Nat
deriving DecidableEq, Repr

/-- The `Payment402Response` interface from protocol.ts. -/
structure Payment402Response where
  x402Version : Nat
  accepts : List PaymentRequirements
  error : Option String
deriving DecidableEq, Repr

/-- Embedding of `create402Response` (protocol.ts lines 164-173), list branch. -/
def create402Response (requirements : List PaymentRequirements)
    (error : Option String) : Payment402Response :=
  { x402Version := X402_VERSION, accepts := requirements, error := error }

/-- Embedding of `create402Response` on a single requirement (the non-`Array.isArray`
branch wraps it in a one-element list). -/
def create402ResponseOne (r : PaymentRequirements) (error : Option String) :
    Payment402Response :=
  create402Response [r] error

/-- The `PaymentResponseHeader` interface from protocol.ts. -/
structure PaymentResponseHeader where
  txHash : String
  paymentId : String
  settled : Bool
  blockNumber : Option String
  timestamp : Nat
deriving DecidableEq, Repr

/-- Embedding of `createPaymentResponse` (protocol.ts lines 178-191); `Date.now()` is the
`now` parameter.  The middleware round-trips `blockNumber` through
`BigInt(...)​.toString()`, the identity on the canonical decimal strings the
facilitator produces; modelled as a pass-through. -/
def createPaymentResponse (txHash paymentId : String) (settled : Bool)
    (blockNumber : Option String) (now : Nat) : PaymentResponseHeader :=
  { txHash := txHash, paymentId := paymentId, settled := settled,
    blockNumber := blockNumber, timestamp := now }

/-- The `X402MiddlewareConfig` interface from middleware.ts. -/
structure X402MiddlewareConfig where
  payTo : String
  asset : String
  maxAmountRequired : String
  network : String
  maxTimeoutSeconds : Nat
  facilitatorUrl : String
  description : Option String
deriving DecidableEq, Repr

/-- Evaluates `config.description || "Payment required for <path>"` (JS `||`: an empty
string also falls back to the default). -/
def mwDescription (config : X402MiddlewareConfig) (path : String) : String :=
  match config.description with
  | some d => if d = "" then "Payment required for " ++ path else d
  | none => "Payment required for " ++ path

/-- The requirements object of the no-header challenge branch
(middleware.ts lines 51-61): includes `description` and `mimeType`. -/
def mwChallengeReq (config : X402MiddlewareConfig) (path : String) : PaymentRequirements :=
  { scheme := "evm-permit", network := config.network,
    maxAmountRequired := config.maxAmountRequired, resource := path,
    description := some (mwDescription config path),
    mimeType := some "application/json",
    payTo := config.payTo, asset := config.asset,
    maxTimeoutSeconds := config.maxTimeoutSeconds }

/-- The requirements object used by the later 402 branches (no
`description`/`mimeType`). -/
def mwBareReq (config : X402MiddlewareConfig) (path : String) : PaymentRequirements :=
  { scheme := "evm-permit", network := config.network,
    maxAmountRequired := config.maxAmountRequired, resource := path,
    description := none, mimeType := none,
    payTo := config.payTo, asset := config.asset,
    maxTimeoutSeconds := config.maxTimeoutSeconds }

/-- URL of the remote verification call: `facilitatorUrl + "/verify"`. -/
def mwVerifyUrl (config : X402MiddlewareConfig) : String :=
  config.facilitatorUrl ++ "/verify"

/-- URL of the remote settlement call: `facilitatorUrl + "/settle"`. -/
def mwSettleUrl (config : X402MiddlewareConfig) : String :=
  config.facilitatorUrl ++ "/settle"

/-- Outcome of one middleware run: a 402 response, or forwarding to the
protected handler with the `X-PAYMENT-RESPONSE` header and the
`x402Payment` context values. -/
inductive MwOutcome where
  | pay402 (body : Payment402Response)
  | forward (respHeader : PaymentResponseHeader)
      (ctxPaymentId ctxTxHash ctxPayer ctxAmount : String)
deriving DecidableEq, Repr

/-- Oracle for the middleware's two `fetch` calls (URL, body payment header)
→ (`response.ok`, parsed JSON); `Except.error` is a thrown fetch/parse
error, landing in the middleware's catch-all. -/
structure FacilitatorRemote where
  postVerify : String → String → Except String (Bool × VerifyResponse)
  postSettle : String → String → Except String (Bool × SettleResponse)

/-- Embedding of `x402Middleware` (middleware.ts lines 45-226): the full per-request
state machine.  `path` is `c.req.path`, `paymentHeader` is the `X-PAYMENT`
header, `now` is `Date.now()`. -/
def x402Middleware (config : X402MiddlewareConfig) (remote : FacilitatorRemote)
    (path : String) (paymentHeader : Option String) (now : Nat) : MwOutcome :=
  match paymentHeader with
  | none =>
    .pay402 (create402ResponseOne (mwChallengeReq config path) (some "Payment required"))
  | some hdr =>
    match decodePaymentPayload hdr with
    | none =>
      .pay402 (create402ResponseOne (mwBareReq config path)
        (some "Payment processing error: Unknown error"))
    | some payload =>
      let validation := validatePaymentPayload payload
      if validation.valid = false then
        .pay402 (create402ResponseOne (mwBareReq config path)
          (some ("Invalid payment: " ++
            (match validation.error with | some e => e | none => "undefined"))))
      else
        match remote.postVerify (mwVerifyUrl config) hdr with
        | .error e =>
          .pay402 (create402ResponseOne (mwBareReq config path)
            (some ("Payment processing error: " ++ e)))
        | .ok (verifyOk, verifyResult) =>
          if verifyOk = false then
            .pay402 (create402ResponseOne (mwBareReq config path)
              (some "Payment verification failed"))
          else if verifyResult.valid = false then
            .pay402 (create402ResponseOne (mwBareReq config path)
              (some ("Payment verification failed: " ++
                (match verifyResult.error with | some e => e | none => "undefined"))))
          else
            match remote.postSettle (mwSettleUrl config) hdr with
            | .error e =>
              .pay402 (create402ResponseOne (mwBareReq config path)
                (some ("Payment processing error: " ++ e)))
            | .ok (settleOk, settleResult) =>
              if settleOk = false then
                .pay402 (create402ResponseOne (mwBareReq config path)
                  (some "Payment settlement failed"))
              else if settleResult.settled = false then
                .pay402 (create402ResponseOne (mwBareReq config path)
                  (some ("Payment settlement failed: " ++
                    (match settleResult.error with | some e => e | none => "undefined"))))
              else
                .forward
                  (createPaymentResponse settleResult.txHash settleResult.paymentId true
                    settleResult.blockNumber now)
                  settleResult.paymentId settleResult.txHash
                  payload.payload.payer payload.payload.amount

/-! ## Facilitator HTTP route table (X402 facilitator server) -/

/-- HTTP methods used by the facilitator app. -/
inductive HttpMethod where
  | GET
  | POST
deriving DecidableEq, Repr

/-- Split a character list on `/` separators. -/
def splitOnSlash : List Char → List (List Char)
  | [] => [[]]
  | c :: rest =>
    if c = '/' then [] :: splitOnSlash rest
    else
      match splitOnSlash rest with
      | [] => [[c]]
      | seg :: segs => (c :: seg) :: segs

/-- Split a path into its non-empty segments. -/
def pathSegments (p : String) : List String :=
  ((splitOnSlash p.data).map String.mk).filter (fun s => s ≠ "")

/-- One pattern segment against one request segment: a `:param` segment
(leading colon) matches anything, otherwise literal equality (Hono
routing). -/
def segMatches (patSeg reqSeg : String) : Bool :=
  (match patSeg.data with
   | c :: _ => c = ':'
   | [] => false) || patSeg = reqSeg

/-- Segment lists match pairwise and have equal length. -/
def segsMatch : List String → List String → Bool
  | [], [] => true
  | p :: ps, r :: rs => segMatches p r && segsMatch ps rs
  | _, _ => false

/-- A registered route handles a request. -/
def routeMatches (route : HttpMethod × String) (m : HttpMethod) (path : String) : Bool :=
  route.1 = m && segsMatch (pathSegments route.2) (pathSegments path)

/-- The terminal routes registered on the facilitator Hono `app`
(server source lines 197-277): health, config, payment creation, status
read, and monitor start.  No `/verify` or `/settle` route is registered. -/
def facilitatorRoutes : List (HttpMethod × String) :=
  [(.GET, "/health"), (.GET, "/config"), (.POST, "/payments/create"),
   (.GET, "/payments/:paymentId"), (.POST, "/payments/:paymentId/monitor")]

/-- Whether some registered route handles the request (otherwise Hono falls
through to its 404 not-found handler). -/
def handlesRequest (routes : List (HttpMethod × String)) (m : HttpMethod)
    (path : String) : Bool :=
  routes.any (fun route => routeMatches route m path)

/-! ## PaymentMonitor (facilitator source lines 124-229)

`monitorPayment` installs a `setInterval` timer whose callback closes over
a mutable `lastStatus`; the registry `monitoredPayments` is a `Map` keyed
by payment id.  The state machine below models the registry as a
functional map, timers as a functional map from handle to closure state
(`active := false` once `clearInterval` has been called — a cleared timer
never fires again), and one execution of the interval callback as
`pollTick` with the status read's outcome as a parameter (`none` = the
read threw and the `catch` only logs). -/

/-- Registry entry (`MonitoredPayment` interface): note `lastStatus` here is
the value stored when monitoring started; the ticking closure mutates its
own captured variable, modelled in `PollTimer`. -/
structure MonitoredPayment where
  paymentId : String
  callbackUrl : String
  lastStatus : PaymentStatus
  pollInterval : Nat
deriving DecidableEq, Repr

/-- Closure state of one `setInterval` callback. -/
structure PollTimer where
  paymentId : String
  callbackUrl : String
  lastStatus : PaymentStatus
  active : Bool
deriving DecidableEq, Repr

/-- Monitoring state of one `PaymentFacilitator` instance. -/
structure FacilitatorState where
  monitoredPayments : String → Option MonitoredPayment
  timers : Nat → Option PollTimer
  nextHandle : Nat

/-- A fresh facilitator: empty registry, no timers. -/
def emptyFacilitatorState : FacilitatorState :=
  { monitoredPayments := fun _ => none, timers := fun _ => none, nextHandle := 0 }

/-- Model of `clearInterval(h)`: the timer stops firing. -/
def clearIntervalH (s : FacilitatorState) (h : Nat) : FacilitatorState :=
  { s with
    timers := fun h' =>
      if h' = h then (s.timers h).map (fun t => { t with active := false })
      else s.timers h' }

/-- Embedding of `PaymentFacilitator.monitorPayment` (lines 124-186): clear any existing
handle for the id, read the initial status (`initialStatus`; a read error
was already mapped to `PENDING` by the source's `catch`), install a fresh
interval timer, and store the registry entry. -/
def monitorPayment (s : FacilitatorState) (paymentId callbackUrl : String)
    (initialStatus : PaymentStatus) : FacilitatorState :=
  let s1 := match s.monitoredPayments paymentId with
    | some existing => clearIntervalH s existing.pollInterval
    | none => s
  let h := s1.nextHandle
  let s2 := { s1 with
    timers := fun h' =>
      if h' = h then
        some { paymentId := paymentId, callbackUrl := callbackUrl,
               lastStatus := initialStatus, active := true }
      else s1.timers h',
    nextHandle := h + 1 }
  { s2 with
    monitoredPayments := fun id =>
      if id = paymentId then
        some { paymentId := paymentId, callbackUrl := callbackUrl,
               lastStatus := initialStatus, pollInterval := h }
      else s2.monitoredPayments id }

/-- A delivered webhook notification. -/
structure WebhookEvent where
  url : String
  paymentId : String
  status : PaymentStatus
deriving DecidableEq, Repr

/-- Terminal payment statuses. -/
def isTerminal (st : PaymentStatus) : Bool :=
  st = PaymentStatus.CLAIMED || st = PaymentStatus.REFUNDED

/-- One execution of the interval callback installed by `monitorPayment`
(lines 146-177) for handle `h`: if the timer is still live and the status
read succeeded with a changed status, update the closure's `lastStatus`,
send the webhook, and — only inside this changed branch — on a terminal
status clear the registry entry's handle and delete the entry. -/
def pollTick (s : FacilitatorState) (h : Nat) (observed : Option PaymentStatus) :
    FacilitatorState × List WebhookEvent :=
  match s.timers h with
  | none => (s, [])
  | some t =>
    if t.active = false then (s, [])
    else
      match observed with
      | none => (s, [])
      | some st =>
        if st = t.lastStatus then (s, [])
        else
          let s1 := { s with
            timers := fun h' =>
              if h' = h then some { t with lastStatus := st } else s.timers h' }
          let ev : WebhookEvent :=
            { url := t.callbackUrl, paymentId := t.paymentId, status := st }
          if isTerminal st then
            let s2 := match s1.monitoredPayments t.paymentId with
              | some monitored => clearIntervalH s1 monitored.pollInterval
              | none => s1
            ({ s2 with
               monitoredPayments := fun id =>
                 if id = t.paymentId then none else s2.monitoredPayments id }, [ev])
          else (s1, [ev])

/-- Embedding of `PaymentFacilitator.stopMonitoring` (lines 211-217). -/
def stopMonitoring (s : FacilitatorState) (paymentId : String) : FacilitatorState :=
  let s1 := match s.monitoredPayments paymentId with
    | some monitored => clearIntervalH s monitored.pollInterval
    | none => s
  { s1 with
    monitoredPayments := fun id =>
      if id = paymentId then none else s1.monitoredPayments id }

/-- Handle `h` is a live poll timer for payment `id` in state `s`. -/
def isActiveFor (s : FacilitatorState) (id : String) (h : Nat) : Prop :=
  ∃ t, s.timers h = some t ∧ t.active = true ∧ t.paymentId = id

/-- Well-formedness of the monitoring state, maintained by every operation:
registry entries point at a live timer for their id, live timers are
pointed at by their id's registry entry, and all timers have
already-allocated handles. -/
structure MonInv (s : FacilitatorState) : Prop where
  reg_timer : ∀ id m, s.monitoredPayments id = some m →
    m.paymentId = id ∧ ∃ t, s.timers m.pollInterval = some t ∧
      t.paymentId = id ∧ t.active = true
  timer_reg : ∀ h t, s.timers h = some t → t.active = true →
    ∃ m, s.monitoredPayments t.paymentId = some m ∧ m.pollInterval = h
  handle_lt : ∀ h t, s.timers h = some t → h < s.nextHandle

/-! ## Concrete sample values used by witnesses and counterexamples -/

/-- A well-formed sample signature. -/
def sampleSig : SignatureVRS := { v := 27, r := "0xaa", s := "0xbb" }

/-- A well-formed, structurally valid sample payload. -/
def sampleP : PaymentPayload :=
  { x402Version := 1, scheme := "evm-permit", network := "localhost",
    payload := { paymentId := "0xp1", payer := "0xA", recipient := "0xB",
                 amount := "100", duration := 60, deadline := "999", nonce := "0",
                 permitSignature := some sampleSig, paymentSignature := some sampleSig } }

/-- Payload whose signatures are present but have empty `r`/`s` and `v = 0`:
structurally valid for the source, invalid per the claim's reading. -/
def emptySigP : PaymentPayload :=
  { x402Version := 1, scheme := "evm-permit", network := "localhost",
    payload := { paymentId := "0xp1", payer := "0xA", recipient := "0xB",
                 amount := "100", duration := 60, deadline := "999", nonce := "0",
                 permitSignature := some { v := 0, r := "", s := "" },
                 paymentSignature := some { v := 0, r := "", s := "" } } }

/-- A record that is claimed and whose expiry is in the past. -/
def pastClaimedRecord : PaymentRecord :=
  { payer := "0xA", recipient := "0xB", amount := 5, expiresAt := 10,
    claimed := true, refunded := false }

/-- A payload with an unsupported protocol version. -/
def wrongVersionP : PaymentPayload :=
  { x402Version := 2, scheme := "evm-permit", network := "localhost",
    payload := sampleP.payload }

/-- Sample chain configuration. -/
def sampleConfig : X402Config :=
  { rpcUrl := "http://localhost:8545", chainId := 31337,
    tokenAddress := "0xT", escrowAddress := "0xE" }

/-- A chain environment in which everything fails (no key, no RPC). -/
def downChainEnv : ChainEnv :=
  { parseKey := fun _ => .error "invalid private key",
    submitTx := fun _ => .error "rpc unreachable",
    waitForReceipt := fun _ => .error "rpc unreachable" }

/-- A chain environment whose submitted transaction is mined but reverts:
the receipt comes back with `status = "reverted"`. -/
def revertChainEnv : ChainEnv :=
  { parseKey := fun _ => .ok "0xFAC",
    submitTx := fun _ => .ok "0xHASH",
    waitForReceipt := fun _ => .ok { statusSuccess := false, blockNumber := 7 } }

/-- A chain environment where settlement succeeds at block 7. -/
def happyChainEnv : ChainEnv :=
  { parseKey := fun _ => .ok "0xFAC",
    submitTx := fun _ => .ok "0xHASH",
    waitForReceipt := fun _ => .ok { statusSuccess := true, blockNumber := 7 } }

/-! # Theorems

First the codec infrastructure, then one theorem per specification claim.
-/

/-! ## Base64 inverts its encoder -/

theorem b64Index_b64Char : ∀ n, n < 64 → b64Index (b64Char n) = some n := by decide

theorem b64Char_ne_pad : ∀ n, n < 64 → ¬(b64Char n = '=') := by decide

/-- Decoding inverts encoding on byte lists (`atob` of `btoa`). -/
theorem base64_roundtrip :
    ∀ bs : List Nat, (∀ b ∈ bs, b < 256) → base64decode (base64encode bs) = some bs
  | [], _ => rfl
  | [b1], h => by
    have hb1 : b1 < 256 := h b1 (by simp)
    have h1 := b64Index_b64Char (b1 / 4) (by omega)
    have h2 := b64Index_b64Char (b1 % 4 * 16) (by omega)
    simp only [base64encode, base64decode, h1, h2, and_self, if_true, eq_self_iff_true,
      Option.some.injEq, List.cons.injEq, and_true]
    omega
  | [b1, b2], h => by
    have hb1 : b1 < 256 := h b1 (by simp)
    have hb2 : b2 < 256 := h b2 (by simp)
    have h1 := b64Index_b64Char (b1 / 4) (by omega)
    have h2 := b64Index_b64Char (b1 % 4 * 16 + b2 / 16) (by omega)
    have h3 := b64Index_b64Char (b2 % 16 * 4) (by omega)
    have hc3 := b64Char_ne_pad (b2 % 16 * 4) (by omega)
    simp only [base64encode, base64decode, h1, h2, h3, hc3, and_false, false_and, and_true,
      true_and, if_false, eq_self_iff_true, and_self, if_true, Option.some.injEq,
      List.cons.injEq]
    omega
  | b1 :: b2 :: b3 :: restBytes, h => by
    have hb1 : b1 < 256 := h b1 (by simp)
    have hb2 : b2 < 256 := h b2 (by simp)
    have hb3 : b3 < 256 := h b3 (by simp)
    have ih := base64_roundtrip restBytes (fun b hb => h b (by simp [hb]))
    have h1 := b64Index_b64Char (b1 / 4) (by omega)
    have h2 := b64Index_b64Char (b1 % 4 * 16 + b2 / 16) (by omega)
    have h3 := b64Index_b64Char (b2 % 16 * 4 + b3 / 64) (by omega)
    have h4 := b64Index_b64Char (b3 % 64) (by omega)
    have hc3 := b64Char_ne_pad (b2 % 16 * 4 + b3 / 64) (by omega)
    have hc4 := b64Char_ne_pad (b3 % 64) (by omega)
    simp only [base64encode, base64decode, h1, h2, h3, h4, hc3, hc4, ih, and_false, false_and,
      and_true, true_and, if_false, Option.some.injEq, List.cons.injEq]
    omega

/-! ## String, digit and fuel helper lemmas -/

theorem wfChar_spec (c : Char) (h : wfChar c = true) :
    32 ≤ c.toNat ∧ c.toNat < 256 ∧ ¬(c = '"') ∧ ¬(c = '\\') := by
  simp only [wfChar, Bool.and_eq_true, decide_eq_true_eq, Bool.not_eq_true',
    decide_eq_false_iff_not] at h
  exact ⟨h.1.1.1, h.1.1.2, h.1.2, h.2⟩

theorem parseStringBody_append (s restChars : List Char) (h : ∀ c ∈ s, ¬(c = '"')) :
    parseStringBody (s ++ '"' :: restChars) = some (s, restChars) := by
  induction s with
  | nil => simp [parseStringBody]
  | cons c cs ih =>
    have hc := h c (by simp)
    have ih' := ih (fun x hx => h x (by simp [hx]))
    simp only [List.cons_append, parseStringBody, if_neg hc, List.append_eq, ih']

theorem digitChar_toNat : ∀ d, d < 10 → (digitChar d).toNat = 48 + d := by decide

theorem digitChar_isDigit : ∀ d, d < 10 → (digitChar d).isDigit = true := by decide

theorem natToChars_ne_nil (n : Nat) : natToChars n ≠ [] := by
  rw [natToChars]
  split
  · simp
  · simp

theorem natToChars_digits (n : Nat) : ∀ c ∈ natToChars n, c.isDigit = true := by
  rw [natToChars]
  split
  · intro c hc
    simp only [List.mem_singleton] at hc
    subst hc
    exact digitChar_isDigit n (by omega)
  · intro c hc
    simp only [List.mem_append, List.mem_singleton] at hc
    rcases hc with hc | hc
    · exact natToChars_digits (n / 10) c hc
    · subst hc
      exact digitChar_isDigit (n % 10) (by omega)
termination_by n
decreasing_by exact Nat.div_lt_self (by omega) (by omega)

theorem natToChars_lt256 (n : Nat) : ∀ c ∈ natToChars n, c.toNat < 256 := by
  intro c hc
  have hd := natToChars_digits n c hc
  have h9 : c ≤ '9' := by
    simp only [Char.isDigit, Bool.and_eq_true, decide_eq_true_eq] at hd
    exact hd.2
  have : c.toNat ≤ (57 : Nat) := h9
  omega

theorem parseDigits_append (ds : List Char) (hds : ∀ c ∈ ds, c.isDigit = true) :
    ∀ (acc : Nat) (restChars : List Char), notDigitStart restChars = true →
      parseDigits acc (ds ++ restChars) = (ds.foldl dstep acc, restChars) := by
  induction ds with
  | nil =>
    intro acc restChars hrest
    cases restChars with
    | nil => rfl
    | cons c cs =>
      simp only [notDigitStart, Bool.not_eq_true'] at hrest
      simp [parseDigits, hrest]
  | cons c cs ih =>
    intro acc restChars hrest
    have hc := hds c (by simp)
    simp only [List.cons_append, parseDigits, hc, if_true, List.foldl_cons]
    exact ih (fun x hx => hds x (by simp [hx])) _ restChars hrest

theorem foldl_natToChars (n : Nat) :
    ∀ acc : Nat, (natToChars n).foldl dstep acc = acc * 10 ^ (natToChars n).length + n := by
  intro acc
  rw [natToChars]
  split
  · next hlt =>
    simp only [List.foldl_cons, List.foldl_nil, List.length_singleton, pow_one, dstep,
      digitChar_toNat n hlt]
    omega
  · next hge =>
    have ih := foldl_natToChars (n / 10) acc
    rw [List.foldl_append, ih, List.length_append]
    simp only [List.foldl_cons, List.foldl_nil, List.length_singleton, dstep,
      digitChar_toNat (n % 10) (by omega), pow_succ]
    have hdm : n / 10 * 10 + n % 10 = n := by omega
    calc (acc * 10 ^ (natToChars (n / 10)).length + n / 10) * 10 + (48 + n % 10 - 48)
        = acc * (10 ^ (natToChars (n / 10)).length * 10) + (n / 10 * 10 + n % 10) := by ring_nf; omega
      _ = acc * (10 ^ (natToChars (n / 10)).length * 10) + n := by rw [hdm]
termination_by n
decreasing_by exact Nat.div_lt_self (by omega) (by omega)

theorem jsonFuel_pos : ∀ j : Json, 1 ≤ jsonFuel j
  | .str _ => le_refl _
  | .num _ => le_refl _
  | .obj fs => by simp [jsonFuel]

theorem fieldsFuel_pos : ∀ fs : JsonFields, 1 ≤ fieldsFuel fs
  | .nil => le_refl _
  | .cons _ v fs => by simp [fieldsFuel]



theorem notDigitStart_renderFields (fs : JsonFields) (restChars : List Char) :
    notDigitStart (renderFieldsL fs ++ rbrace :: restChars) = true := by
  cases fs with
  | nil =>
    simp only [renderFieldsL, List.nil_append, notDigitStart]
    decide
  | cons k v fs' =>
    simp only [renderFieldsL, List.cons_append, notDigitStart]
    decide

theorem wfStr_no_quote (s : String) (h : wfStr s = true) : ∀ c ∈ s.data, ¬(c = '"') := by
  intro c hc
  have := wfChar_spec c (by
    simp only [wfStr, List.all_eq_true] at h
    exact h c hc)
  exact this.2.2.1

mutual
theorem parse_render_json (j : Json) (restChars : List Char) (f : Nat)
    (hwf : wfJson j = true) (hfuel : jsonFuel j ≤ f + 1)
    (hrest : notDigitStart restChars = true) :
    parseJsonF (f + 1) (renderJsonL j ++ restChars) = some (j, restChars) := by
  cases j with
  | str s =>
    have hq : ∀ c ∈ s.data, ¬(c = '"') := wfStr_no_quote s (by simpa [wfJson] using hwf)
    simp only [renderJsonL, renderStringL, List.cons_append, List.append_assoc,
      List.singleton_append, List.nil_append, List.append_eq, parseJsonF,
      eq_self_iff_true, if_true]
    rw [parseStringBody_append s.data restChars hq]
  | num n =>
    cases hnc : natToChars n with
    | nil => exact absurd hnc (natToChars_ne_nil n)
    | cons c cs =>
      have hdig : ∀ x ∈ natToChars n, x.isDigit = true := natToChars_digits n
      have hcdig : c.isDigit = true := hdig c (by rw [hnc]; simp)
      have hcq : ¬(c = '"') := by
        intro hcq
        rw [hcq] at hcdig
        exact absurd hcdig (by decide)
      have hcs : ∀ x ∈ cs, x.isDigit = true := fun x hx => hdig x (by rw [hnc]; simp [hx])
      have hval : (natToChars n).foldl dstep 0 = n := by
        rw [foldl_natToChars n 0]
        simp
      rw [hnc] at hval
      simp only [List.foldl_cons, dstep, Nat.zero_mul, Nat.zero_add] at hval
      simp only [renderJsonL, hnc, List.cons_append]
      simp only [parseJsonF, eq_false hcq, if_false, hcdig, eq_self_iff_true, if_true]
      rw [parseDigits_append cs hcs (c.toNat - 48) restChars hrest]
      rw [hval]
  | obj fs =>
    have hb1 : (lbrace = '"') = False := by decide
    have hb2 : lbrace.isDigit = false := by decide
    cases fs with
    | nil =>
      simp only [renderJsonL, List.cons_append, parseJsonF, hb1, hb2, Bool.false_eq_true,
        if_false, eq_self_iff_true, if_true, List.nil_append]
    | cons k v fs' =>
      have hb3 : ('"' = rbrace) = False := by decide
      have hwfp : (wfStr k = true ∧ wfJson v = true) ∧ wfFields fs' = true := by
        simpa [wfJson, wfFields, Bool.and_eq_true] using hwf
      have hfuelp : fieldsFuel (.cons k v fs') ≤ f := by
        simp only [jsonFuel] at hfuel
        omega
      have hf := parse_render_fields k v fs' restChars f hwfp.1.1 hwfp.1.2 hwfp.2 hfuelp
      simp only [renderStringL, List.cons_append, List.append_assoc,
        List.singleton_append, List.nil_append, List.append_eq] at hf
      simp only [renderJsonL, renderStringL, List.cons_append, List.append_assoc,
        List.singleton_append, List.nil_append, List.append_eq, parseJsonF, hb1, hb2, hb3,
        Bool.false_eq_true, if_false, eq_self_iff_true, if_true]
      rw [hf]
termination_by jsonFuel j
decreasing_by
  subst_vars
  simp only [jsonFuel, fieldsFuel]
  omega
theorem parse_render_fields (k : String) (v : Json) (fs : JsonFields)
    (restChars : List Char) (g : Nat)
    (hwfk : wfStr k = true) (hwfv : wfJson v = true) (hwffs : wfFields fs = true)
    (hfuel : fieldsFuel (.cons k v fs) ≤ g) :
    parseFieldsF g
      (renderStringL k ++ ':' :: (renderJsonL v ++ (renderFieldsL fs ++ rbrace :: restChars)))
      = some (.cons k v fs, restChars) := by
  have hg : 1 ≤ g := by
    have := jsonFuel_pos v
    have := fieldsFuel_pos fs
    simp only [fieldsFuel] at hfuel
    omega
  have hg2 : 2 ≤ g := by
    have := jsonFuel_pos v
    have := fieldsFuel_pos fs
    simp only [fieldsFuel] at hfuel
    omega
  obtain ⟨g', rfl⟩ : ∃ g', g = g' + 1 := ⟨g - 1, by omega⟩
  obtain ⟨g2, rfl⟩ : ∃ g2, g' = g2 + 1 := ⟨g' - 1, by omega⟩
  have hkq : ∀ c ∈ k.data, ¬(c = '"') := wfStr_no_quote k hwfk
  have hvfuel : jsonFuel v ≤ g2 + 1 := by
    have := fieldsFuel_pos fs
    simp only [fieldsFuel] at hfuel
    omega
  have hv := parse_render_json v (renderFieldsL fs ++ rbrace :: restChars) g2 hwfv hvfuel
    (notDigitStart_renderFields fs restChars)
  simp only [renderStringL, List.cons_append, List.append_assoc, List.singleton_append,
    List.nil_append, List.append_eq, parseFieldsF, eq_self_iff_true, if_true]
  rw [parseStringBody_append k.data _ hkq]
  simp only [eq_self_iff_true, if_true]
  rw [hv]
  cases fs with
  | nil =>
    have hb5 : (rbrace = ',') = False := by decide
    simp only [renderFieldsL, List.nil_append, hb5, if_false, eq_self_iff_true, if_true]
  | cons k2 v2 fs2 =>
    have hwffsp : (wfStr k2 = true ∧ wfJson v2 = true) ∧ wfFields fs2 = true := by
      simpa [wfFields, Bool.and_eq_true] using hwffs
    have hfuel2 : fieldsFuel (.cons k2 v2 fs2) ≤ g2 + 1 := by
      have := jsonFuel_pos v
      simp only [fieldsFuel] at hfuel ⊢
      omega
    have hrec := parse_render_fields k2 v2 fs2 restChars (g2 + 1) hwffsp.1.1 hwffsp.1.2
      hwffsp.2 hfuel2
    simp only [renderFieldsL, renderStringL, List.cons_append, List.append_assoc,
      List.singleton_append, List.nil_append, List.append_eq] at hrec ⊢
    simp only [eq_self_iff_true, if_true]
    rw [hrec]
termination_by jsonFuel v + fieldsFuel fs
decreasing_by
  · have := fieldsFuel_pos fs
    omega
  · subst_vars
    simp only [fieldsFuel]
    have := jsonFuel_pos v
    omega
end


mutual
theorem renderJson_lt256 (j : Json) (hwf : wfJson j = true) :
    ∀ c ∈ renderJsonL j, c.toNat < 256 := by
  cases j with
  | str s =>
    intro c hc
    simp only [renderJsonL, renderStringL, List.mem_cons, List.mem_append,
      List.mem_singleton, List.not_mem_nil, or_false] at hc
    rcases hc with rfl | hc | rfl
    · decide
    · exact (wfChar_spec c (by
        simp only [wfJson, wfStr, List.all_eq_true] at hwf
        exact hwf c hc)).2.1
    · decide
  | num n => exact fun c hc => natToChars_lt256 n c hc
  | obj fs =>
    cases fs with
    | nil =>
      intro c hc
      simp only [renderJsonL, List.mem_cons, List.not_mem_nil, or_false] at hc
      rcases hc with rfl | rfl
      · decide
      · decide
    | cons k v fs2 =>
      intro c hc
      have hwfp : (wfStr k = true ∧ wfJson v = true) ∧ wfFields fs2 = true := by
        simpa [wfJson, wfFields, Bool.and_eq_true] using hwf
      simp only [renderJsonL, renderStringL, List.mem_cons, List.mem_append,
        List.mem_singleton, List.not_mem_nil, or_false] at hc
      rcases hc with rfl | hc
      · decide
      · rcases hc with (rfl | hk | rfl) | rfl | hv | hf | rfl
        · decide
        · exact (wfChar_spec c (by
            have := hwfp.1.1
            simp only [wfStr, List.all_eq_true] at this
            exact this c hk)).2.1
        · decide
        · decide
        · exact renderJson_lt256 v hwfp.1.2 c hv
        · exact renderFields_lt256 fs2 hwfp.2 c hf
        · decide
theorem renderFields_lt256 (fs : JsonFields) (hwf : wfFields fs = true) :
    ∀ c ∈ renderFieldsL fs, c.toNat < 256 := by
  cases fs with
  | nil => intro c hc; cases hc
  | cons k v fs2 =>
    intro c hc
    have hwfp : (wfStr k = true ∧ wfJson v = true) ∧ wfFields fs2 = true := by
      simpa [wfFields, Bool.and_eq_true] using hwf
    simp only [renderFieldsL, renderStringL, List.mem_cons, List.mem_append,
      List.mem_singleton, List.not_mem_nil, or_false] at hc
    rcases hc with rfl | hc
    · decide
    · rcases hc with (rfl | hk | rfl) | rfl | hv | hf
      · decide
      · exact (wfChar_spec c (by
          have := hwfp.1.1
          simp only [wfStr, List.all_eq_true] at this
          exact this c hk)).2.1
      · decide
      · decide
      · exact renderJson_lt256 v hwfp.1.2 c hv
      · exact renderFields_lt256 fs2 hwfp.2 c hf
end

mutual
theorem jsonFuel_le_render (j : Json) : jsonFuel j ≤ (renderJsonL j).length + 1 := by
  cases j with
  | str s => simp [jsonFuel, renderJsonL, renderStringL]
  | num n => simp [jsonFuel]
  | obj fs =>
    cases fs with
    | nil => simp [jsonFuel, fieldsFuel, renderJsonL]
    | cons k v fs2 =>
      have h1 := jsonFuel_le_render v
      have h2 := fieldsFuel_le_render fs2
      simp only [jsonFuel, fieldsFuel, renderJsonL, renderStringL, List.length_cons,
        List.length_append, List.length_singleton]
      omega
theorem fieldsFuel_le_render (fs : JsonFields) :
    fieldsFuel fs ≤ (renderFieldsL fs).length + 1 := by
  cases fs with
  | nil => simp [fieldsFuel, renderFieldsL]
  | cons k v fs2 =>
    have h1 := jsonFuel_le_render v
    have h2 := fieldsFuel_le_render fs2
    simp only [fieldsFuel, renderFieldsL, renderStringL, List.length_cons,
      List.length_append, List.length_singleton]
    omega
end

theorem jsonToPayload_payloadToJson (p : PaymentPayload) :
    jsonToPayload (payloadToJson p) = some p := by
  obtain ⟨ver, sch, net, evm⟩ := p
  obtain ⟨pid, py, rc, am, du, dl, no, ps, qs⟩ := evm
  cases ps <;> cases qs <;> rfl


theorem wfStr_keys :
    wfStr "x402Version" = true ∧ wfStr "scheme" = true ∧ wfStr "network" = true ∧
    wfStr "payload" = true ∧ wfStr "paymentId" = true ∧ wfStr "payer" = true ∧
    wfStr "recipient" = true ∧ wfStr "amount" = true ∧ wfStr "duration" = true ∧
    wfStr "deadline" = true ∧ wfStr "nonce" = true ∧ wfStr "permitSignature" = true ∧
    wfStr "paymentSignature" = true ∧ wfStr "v" = true ∧ wfStr "r" = true ∧
    wfStr "s" = true := by decide

theorem wfJson_payloadToJson (p : PaymentPayload) (h : wellFormedPayload p = true) :
    wfJson (payloadToJson p) = true := by
  obtain ⟨ver, sch, net, evm⟩ := p
  obtain ⟨pid, py, rc, am, du, dl, no, ps, qs⟩ := evm
  have hk := wfStr_keys
  cases ps <;> cases qs <;>
    simp_all [wellFormedPayload, payloadToJson, evmToJson, optSigField, sigToJson,
      wfJson, wfFields, Bool.and_eq_true]

theorem decode_encode (p : PaymentPayload) (h : wellFormedPayload p = true) :
    decodePaymentPayload (encodePaymentPayload p) = some p := by
  have hwfj : wfJson (payloadToJson p) = true := wfJson_payloadToJson p h
  have hlt : ∀ b ∈ (renderJsonL (payloadToJson p)).map Char.toNat, b < 256 := by
    intro b hb
    simp only [List.mem_map] at hb
    obtain ⟨c, hc, rfl⟩ := hb
    exact renderJson_lt256 (payloadToJson p) hwfj c hc
  have hchars : ((renderJsonL (payloadToJson p)).map Char.toNat).map Char.ofNat
      = renderJsonL (payloadToJson p) := by
    simp [List.map_map, Function.comp_def, Char.ofNat_toNat]
  have hparse := parse_render_json (payloadToJson p) []
    (renderJsonL (payloadToJson p)).length hwfj (jsonFuel_le_render (payloadToJson p)) rfl
  rw [List.append_nil] at hparse
  simp only [decodePaymentPayload, encodePaymentPayload]
  rw [base64_roundtrip _ hlt]
  simp only [hchars, List.length_map]
  rw [hparse]
  exact jsonToPayload_payloadToJson p


/-! ## Verification-layer helper lemmas -/

theorem validatePaymentPayload_error_isSome (payload : PaymentPayload)
    (h : (validatePaymentPayload payload).valid = false) :
    ((validatePaymentPayload payload).error).isSome = true := by
  unfold validatePaymentPayload at h ⊢
  split_ifs at h ⊢ <;> simp_all

/-! ## Claim theorems -/

/-- C1: payment status is a pure function of the on-chain record and the
current time, computed with priority claimed ⇒ CLAIMED, else refunded ⇒
REFUNDED, else `now > expiresAt` ⇒ EXPIRED, else PENDING; in particular a
claimed record whose `expiresAt` is in the past is CLAIMED, not EXPIRED. -/
theorem claim_C1_computeStatus (record : PaymentRecord) (currentTime : Nat) :
    computeStatus record currentTime =
      (if record.claimed then PaymentStatus.CLAIMED
       else if record.refunded then PaymentStatus.REFUNDED
       else if currentTime > record.expiresAt then PaymentStatus.EXPIRED
       else PaymentStatus.PENDING) ∧
    (record.claimed = true ∧ record.expiresAt < currentTime →
      computeStatus record currentTime = PaymentStatus.CLAIMED ∧
      computeStatus record currentTime ≠ PaymentStatus.EXPIRED) := by
  refine ⟨rfl, ?_⟩
  rintro ⟨hc, _⟩
  simp [computeStatus, hc]

theorem claim_C1_witness :
    computeStatus pastClaimedRecord 99 = PaymentStatus.CLAIMED ∧
    computeStatus pastClaimedRecord 99 ≠ PaymentStatus.EXPIRED :=
  (claim_C1_computeStatus pastClaimedRecord 99).2 (by decide)

/-- C2 falsified as stated: a payload whose two signature structures are
present but whose `v`/`r`/`s` components are all empty (`v = 0`,
`r = s = ""`) is accepted by `validatePaymentPayload` (`valid:true`),
whereas the claim requires `valid:false` for empty signature components. -/
theorem claim_C2_counterexample :
    (validatePaymentPayload emptySigP).valid = true ∧
    emptySigP.payload.permitSignature = some { v := 0, r := "", s := "" } ∧
    emptySigP.payload.paymentSignature = some { v := 0, r := "", s := "" } := by
  refine ⟨by decide, rfl, rfl⟩

/-- C2 (amended): `validate` returns `valid:false` — always with an error
string — exactly when the version differs from the supported one, or the
scheme is outside the supported set, or `paymentId`/`payer`/`recipient` is
missing (empty), or either signature structure is missing; the `v`/`r`/`s`
components of a present signature are not inspected. -/
theorem claim_C2_validate (payload : PaymentPayload) :
    ((validatePaymentPayload payload).valid = false ↔
      (payload.x402Version ≠ X402_VERSION ∨
       (payload.scheme ≠ "evm-permit" ∧ payload.scheme ≠ "evm-legacy") ∨
       payload.payload.paymentId = "" ∨ payload.payload.payer = "" ∨
       payload.payload.recipient = "" ∨
       payload.payload.permitSignature = none ∨
       payload.payload.paymentSignature = none)) ∧
    ((validatePaymentPayload payload).valid = false →
      ((validatePaymentPayload payload).error).isSome = true) := by
  refine ⟨?_, validatePaymentPayload_error_isSome payload⟩
  unfold validatePaymentPayload
  split_ifs with h1 h2 h3 h4
  · exact ⟨fun _ => Or.inl h1, fun _ => rfl⟩
  · exact ⟨fun _ => Or.inr (Or.inl h2), fun _ => rfl⟩
  · exact ⟨fun _ => by tauto, fun _ => rfl⟩
  · exact ⟨fun _ => by tauto, fun _ => rfl⟩
  · refine ⟨fun habs => by simp at habs, fun hd => ?_⟩
    tauto

theorem claim_C2_witness :
    ((validatePaymentPayload wrongVersionP).error).isSome = true :=
  (claim_C2_validate wrongVersionP).2 (by decide)

/-- C3: for every well-formed payload, decoding the encoding returns the
same payload, and the encoding is the deterministic base64 of the
payload's JSON rendering. -/
theorem claim_C3_roundtrip (p : PaymentPayload) (h : wellFormedPayload p = true) :
    decodePaymentPayload (encodePaymentPayload p) = some p ∧
    encodePaymentPayload p =
      String.mk (base64encode ((renderJsonL (payloadToJson p)).map Char.toNat)) :=
  ⟨decode_encode p h, rfl⟩

theorem claim_C3_witness :
    wellFormedPayload sampleP = true ∧
    decodePaymentPayload (encodePaymentPayload sampleP) = some sampleP :=
  ⟨by decide, (claim_C3_roundtrip sampleP (by decide)).1⟩

/-- C4: when re-verification fails, `settlePayment` returns `settled:false`
carrying the verification error, and submits no transaction (empty
`writeContract` trace, so no chain call and no gas spent). -/
theorem claim_C4_settle_verify_fail (env : ChainEnv) (config : X402Config)
    (encodedPayment facilitatorKey : String)
    (h : (verifyPayment encodedPayment).valid = false) :
    (settlePayment env config encodedPayment facilitatorKey).1.settled = false ∧
    (settlePayment env config encodedPayment facilitatorKey).1.error =
      (verifyPayment encodedPayment).error ∧
    (settlePayment env config encodedPayment facilitatorKey).2 = [] := by
  unfold settlePayment
  simp [h, failSettle]

theorem claim_C4_witness :
    (settlePayment downChainEnv sampleConfig "" "0xkey").1.settled = false ∧
    (settlePayment downChainEnv sampleConfig "" "0xkey").1.error = (verifyPayment "").error ∧
    (settlePayment downChainEnv sampleConfig "" "0xkey").2 = [] :=
  claim_C4_settle_verify_fail downChainEnv sampleConfig "" "0xkey" (by decide)

/-- C6 (code bug): the facilitator Hono app registers no route matching
`POST /verify` or `POST /settle` — such requests fall through unmatched —
although it does handle its other documented routes, and the resource
middleware in the same repository posts to exactly
`facilitatorUrl + "/verify"` and `facilitatorUrl + "/settle"`. -/
theorem claim_C6_routes :
    handlesRequest facilitatorRoutes .POST "/verify" = false ∧
    handlesRequest facilitatorRoutes .POST "/settle" = false ∧
    handlesRequest facilitatorRoutes .GET "/health" = true ∧
    handlesRequest facilitatorRoutes .GET "/config" = true ∧
    handlesRequest facilitatorRoutes .POST "/payments/create" = true ∧
    handlesRequest facilitatorRoutes .GET "/payments/0xp1" = true ∧
    handlesRequest facilitatorRoutes .POST "/payments/0xp1/monitor" = true ∧
    (∀ config : X402MiddlewareConfig,
      mwVerifyUrl config = config.facilitatorUrl ++ "/verify" ∧
      mwSettleUrl config = config.facilitatorUrl ++ "/settle") := by
  refine ⟨by decide, by decide, by decide, by decide, by decide, by decide, by decide,
    fun config => ⟨rfl, rfl⟩⟩

/-- C7: a protected request without an `X-PAYMENT` header yields the 402
challenge whose single accepted requirement carries the configured
`payTo`, the configured `maxAmountRequired` string, and the requested
resource path. -/
theorem claim_C7_challenge (config : X402MiddlewareConfig) (remote : FacilitatorRemote)
    (path : String) (now : Nat) :
    x402Middleware config remote path none now =
      MwOutcome.pay402
        { x402Version := X402_VERSION, accepts := [mwChallengeReq config path],
          error := some "Payment required" } ∧
    (mwChallengeReq config path).payTo = config.payTo ∧
    (mwChallengeReq config path).maxAmountRequired = config.maxAmountRequired ∧
    (mwChallengeReq config path).resource = path :=
  ⟨rfl, rfl, rfl, rfl⟩

/-- C9: `verifyPayment` is total — for every input string it returns a
`VerifyResponse`; on any decode or validation failure the result is
`valid:false` with an error string, and otherwise it carries exactly the
decoded payload's `paymentId`, `payer` and `amount`. -/
theorem claim_C9_verify_total (s : String) :
    ((verifyPayment s).valid = false ∧ ((verifyPayment s).error).isSome = true) ∨
    (∃ p, decodePaymentPayload s = some p ∧ (validatePaymentPayload p).valid = true ∧
      verifyPayment s = { valid := true,
                          paymentId := some p.payload.paymentId,
                          payer := some p.payload.payer,
                          amount := some p.payload.amount,
                          error := none }) := by
  unfold verifyPayment
  cases hd : decodePaymentPayload s with
  | none => exact Or.inl ⟨rfl, rfl⟩
  | some p =>
    cases hv : (validatePaymentPayload p).valid with
    | false =>
      refine Or.inl ⟨by simp [hv], ?_⟩
      simpa [hv] using validatePaymentPayload_error_isSome p hv
    | true =>
      refine Or.inr ⟨p, rfl, hv, ?_⟩
      simp [hv]


/-! ## Settlement path helper lemmas -/

theorem verifyPayment_of_decode (encodedPayment : String) (p : PaymentPayload)
    (hdec : decodePaymentPayload encodedPayment = some p)
    (hval : (validatePaymentPayload p).valid = true) :
    verifyPayment encodedPayment = { valid := true,
                                     paymentId := some p.payload.paymentId,
                                     payer := some p.payload.payer,
                                     amount := some p.payload.amount,
                                     error := none } := by
  unfold verifyPayment
  rw [hdec]
  simp [hval]

/-- Evaluating `settlePayment` on the full submission path: verification passed, key
parsed, arguments converted, transaction submitted, and a receipt came
back.  The result maps the receipt status to `settled` and the trace holds
exactly the one submitted transaction. -/
theorem settlePayment_submitted (env : ChainEnv) (config : X402Config)
    (encodedPayment facilitatorKey : String) (p : PaymentPayload)
    (paymentSig permitSig : SignatureVRS) (amountInt deadlineInt : Int)
    (facAddr txHash : String) (receipt : TxReceipt)
    (hdec : decodePaymentPayload encodedPayment = some p)
    (hval : (validatePaymentPayload p).valid = true)
    (hsigP : p.payload.paymentSignature = some paymentSig)
    (hsigQ : p.payload.permitSignature = some permitSig)
    (hamt : jsBigInt p.payload.amount = some amountInt)
    (hdl : jsBigInt p.payload.deadline = some deadlineInt)
    (hkey : env.parseKey facilitatorKey = .ok facAddr)
    (hsub : env.submitTx (settleTxOf config p.payload amountInt deadlineInt paymentSig permitSig)
      = .ok txHash)
    (hwait : env.waitForReceipt txHash = .ok receipt) :
    settlePayment env config encodedPayment facilitatorKey =
      ({ txHash := txHash,
         paymentId := p.payload.paymentId,
         settled := receipt.statusSuccess,
         blockNumber := some (toString receipt.blockNumber),
         error := none },
       [settleTxOf config p.payload amountInt deadlineInt paymentSig permitSig]) := by
  have hver := verifyPayment_of_decode encodedPayment p hdec hval
  unfold settlePayment
  rw [hver]
  simp only [Bool.true_eq_false, if_false, ite_false]
  rw [hdec, hkey]
  simp only [hsigP, hsigQ, hamt, hdl, hsub, hwait]

/-- C5 (amended): once the escrow transaction is submitted and a receipt is
obtained, the response carries the real `txHash`, the payload's
`paymentId`, `settled = (receipt.status == "success")` and the receipt's
block number, with no `error` string (also when the receipt reports a
revert), and exactly one transaction was submitted — no retry. -/
theorem claim_C5_settle_receipt (env : ChainEnv) (config : X402Config)
    (encodedPayment facilitatorKey : String) (p : PaymentPayload)
    (paymentSig permitSig : SignatureVRS) (amountInt deadlineInt : Int)
    (facAddr txHash : String) (receipt : TxReceipt)
    (hdec : decodePaymentPayload encodedPayment = some p)
    (hval : (validatePaymentPayload p).valid = true)
    (hsigP : p.payload.paymentSignature = some paymentSig)
    (hsigQ : p.payload.permitSignature = some permitSig)
    (hamt : jsBigInt p.payload.amount = some amountInt)
    (hdl : jsBigInt p.payload.deadline = some deadlineInt)
    (hkey : env.parseKey facilitatorKey = .ok facAddr)
    (hsub : env.submitTx (settleTxOf config p.payload amountInt deadlineInt paymentSig permitSig)
      = .ok txHash)
    (hwait : env.waitForReceipt txHash = .ok receipt) :
    (settlePayment env config encodedPayment facilitatorKey).1 =
      { txHash := txHash,
        paymentId := p.payload.paymentId,
        settled := receipt.statusSuccess,
        blockNumber := some (toString receipt.blockNumber),
        error := none } ∧
    (settlePayment env config encodedPayment facilitatorKey).2.length = 1 := by
  rw [settlePayment_submitted env config encodedPayment facilitatorKey p paymentSig permitSig
    amountInt deadlineInt facAddr txHash receipt hdec hval hsigP hsigQ hamt hdl hkey hsub hwait]
  exact ⟨rfl, rfl⟩

theorem claim_C5_witness :
    (settlePayment happyChainEnv sampleConfig (encodePaymentPayload sampleP) "0xkey").1 =
      { txHash := "0xHASH", paymentId := "0xp1", settled := true,
        blockNumber := some "7", error := none } ∧
    (settlePayment happyChainEnv sampleConfig (encodePaymentPayload sampleP) "0xkey").2.length
      = 1 :=
  claim_C5_settle_receipt happyChainEnv sampleConfig (encodePaymentPayload sampleP) "0xkey"
    sampleP sampleSig sampleSig 100 999 "0xFAC" "0xHASH"
    { statusSuccess := true, blockNumber := 7 }
    (decode_encode sampleP (by decide)) (by decide) rfl rfl (by decide) (by decide) rfl rfl rfl

/-- C5 falsified as stated: with a transaction that is mined but reverts
(receipt status `"reverted"`), `settlePayment` returns `settled:false`
with **no** error string (and the real `txHash`), while the claim promises
`{settled:false, error}` on a chain revert. -/
theorem claim_C5_counterexample :
    (settlePayment revertChainEnv sampleConfig (encodePaymentPayload sampleP) "0xkey").1.settled
      = false ∧
    (settlePayment revertChainEnv sampleConfig (encodePaymentPayload sampleP) "0xkey").1.error
      = none ∧
    (settlePayment revertChainEnv sampleConfig (encodePaymentPayload sampleP) "0xkey").1.txHash
      = "0xHASH" := by
  rw [settlePayment_submitted revertChainEnv sampleConfig (encodePaymentPayload sampleP)
    "0xkey" sampleP sampleSig sampleSig 100 999 "0xFAC" "0xHASH"
    { statusSuccess := false, blockNumber := 7 }
    (decode_encode sampleP (by decide)) (by decide) rfl rfl (by decide) (by decide) rfl rfl rfl]
  exact ⟨rfl, rfl, rfl⟩

/-- C10: whenever `settlePayment` fails before a receipt is obtained —
equivalently, whenever its response carries an error string, since the
receipt branch never sets one — the response carries the placeholders
`txHash = "0x0"` and `paymentId = "0x0"` with `settled:false`, never the
payload's actual `paymentId`. -/
theorem claim_C10_settle_placeholders (env : ChainEnv) (config : X402Config)
    (encodedPayment facilitatorKey : String)
    (h : ((settlePayment env config encodedPayment facilitatorKey).1.error).isSome = true) :
    (settlePayment env config encodedPayment facilitatorKey).1.txHash = "0x0" ∧
    (settlePayment env config encodedPayment facilitatorKey).1.paymentId = "0x0" ∧
    (settlePayment env config encodedPayment facilitatorKey).1.settled = false := by
  unfold settlePayment at h ⊢
  by_cases hv : (verifyPayment encodedPayment).valid = false
  · simp [hv, failSettle]
  · simp only [hv, if_false, ite_false] at h ⊢
    cases hdec : decodePaymentPayload encodedPayment with
    | none => simp [hdec, failSettle]
    | some p =>
      simp only [hdec] at h ⊢
      cases hkey : env.parseKey facilitatorKey with
      | error e => simp [hkey, failSettle]
      | ok facAddr =>
        simp only [hkey] at h ⊢
        cases hsigP : p.payload.paymentSignature with
        | none => simp [hsigP, failSettle]
        | some paymentSig =>
          cases hsigQ : p.payload.permitSignature with
          | none => simp [hsigP, hsigQ, failSettle]
          | some permitSig =>
            simp only [hsigP, hsigQ] at h ⊢
            cases hamt : jsBigInt p.payload.amount with
            | none => simp [hamt, failSettle]
            | some amountInt =>
              cases hdl : jsBigInt p.payload.deadline with
              | none => simp [hamt, hdl, failSettle]
              | some deadlineInt =>
                simp only [hamt, hdl] at h ⊢
                cases hsub : env.submitTx (settleTxOf config p.payload amountInt deadlineInt
                    paymentSig permitSig) with
                | error e => simp [hsub, failSettle]
                | ok txHash =>
                  simp only [hsub] at h ⊢
                  cases hwait : env.waitForReceipt txHash with
                  | error e => simp [hwait, failSettle]
                  | ok receipt => simp [hwait] at h

theorem claim_C10_witness :
    (settlePayment downChainEnv sampleConfig "not-base64!" "0xbadkey").1.txHash = "0x0" ∧
    (settlePayment downChainEnv sampleConfig "not-base64!" "0xbadkey").1.paymentId = "0x0" ∧
    (settlePayment downChainEnv sampleConfig "not-base64!" "0xbadkey").1.settled = false :=
  claim_C10_settle_placeholders downChainEnv sampleConfig "not-base64!" "0xbadkey" (by decide)


/-! ## Monitoring state machine lemmas -/

theorem monInv_empty : MonInv emptyFacilitatorState := by
  constructor
  · intro id m hm
    simp [emptyFacilitatorState] at hm
  · intro h t ht hact
    simp [emptyFacilitatorState] at ht
  · intro h t ht
    simp [emptyFacilitatorState] at ht

theorem monitorPayment_nextHandle (s : FacilitatorState) (id cb : String)
    (st : PaymentStatus) :
    (monitorPayment s id cb st).nextHandle = s.nextHandle + 1 := by
  unfold monitorPayment clearIntervalH
  cases s.monitoredPayments id <;> rfl

theorem monitorPayment_registry (s : FacilitatorState) (id cb : String)
    (st : PaymentStatus) (i : String) :
    (monitorPayment s id cb st).monitoredPayments i =
      if i = id then
        some { paymentId := id, callbackUrl := cb, lastStatus := st,
               pollInterval := s.nextHandle }
      else s.monitoredPayments i := by
  unfold monitorPayment clearIntervalH
  cases s.monitoredPayments id <;> rfl

theorem monitorPayment_timers (s : FacilitatorState) (id cb : String)
    (st : PaymentStatus) (h' : Nat) :
    (monitorPayment s id cb st).timers h' =
      if h' = s.nextHandle then
        some { paymentId := id, callbackUrl := cb, lastStatus := st, active := true }
      else
        match s.monitoredPayments id with
        | some existing =>
          if h' = existing.pollInterval then
            (s.timers existing.pollInterval).map (fun t => { t with active := false })
          else s.timers h'
        | none => s.timers h' := by
  unfold monitorPayment clearIntervalH
  cases s.monitoredPayments id <;> rfl

theorem monitorPayment_timers_none (s : FacilitatorState) (id cb : String)
    (st : PaymentStatus) (h' : Nat) (hme : s.monitoredPayments id = none) :
    (monitorPayment s id cb st).timers h' =
      if h' = s.nextHandle then
        some { paymentId := id, callbackUrl := cb, lastStatus := st, active := true }
      else s.timers h' := by
  unfold monitorPayment clearIntervalH
  rw [hme]

theorem monitorPayment_timers_some (s : FacilitatorState) (id cb : String)
    (st : PaymentStatus) (h' : Nat) (existing : MonitoredPayment)
    (hme : s.monitoredPayments id = some existing) :
    (monitorPayment s id cb st).timers h' =
      if h' = s.nextHandle then
        some { paymentId := id, callbackUrl := cb, lastStatus := st, active := true }
      else if h' = existing.pollInterval then
        (s.timers existing.pollInterval).map (fun t => { t with active := false })
      else s.timers h' := by
  unfold monitorPayment clearIntervalH
  rw [hme]

theorem monInv_monitorPayment {s : FacilitatorState} (inv : MonInv s)
    (id cb : String) (st : PaymentStatus) :
    MonInv (monitorPayment s id cb st) := by
  constructor
  · intro i m hm
    rw [monitorPayment_registry] at hm
    by_cases hi : i = id
    · subst hi
      rw [if_pos rfl] at hm
      obtain rfl := Option.some.inj hm
      refine ⟨rfl, ?_⟩
      cases hme : s.monitoredPayments i with
      | none =>
        rw [monitorPayment_timers_none s i cb st _ hme, if_pos rfl]
        exact ⟨_, rfl, rfl, rfl⟩
      | some existing =>
        rw [monitorPayment_timers_some s i cb st _ existing hme, if_pos rfl]
        exact ⟨_, rfl, rfl, rfl⟩
    · rw [if_neg hi] at hm
      obtain ⟨hpid, t, ht, htpid, htact⟩ := inv.reg_timer i m hm
      refine ⟨hpid, ?_⟩
      have hlt := inv.handle_lt _ _ ht
      cases hme : s.monitoredPayments id with
      | none =>
        rw [monitorPayment_timers_none s id cb st _ hme, if_neg (by omega)]
        exact ⟨t, ht, htpid, htact⟩
      | some existing =>
        rw [monitorPayment_timers_some s id cb st _ existing hme, if_neg (by omega)]
        by_cases hpe : m.pollInterval = existing.pollInterval
        · exfalso
          obtain ⟨hpid2, t2, ht2, htpid2, htact2⟩ := inv.reg_timer id existing hme
          rw [← hpe] at ht2
          rw [ht] at ht2
          obtain rfl := Option.some.inj ht2
          rw [htpid] at htpid2
          exact hi htpid2
        · rw [if_neg hpe]
          exact ⟨t, ht, htpid, htact⟩
  · intro h t ht hact
    cases hme : s.monitoredPayments id with
    | none =>
      rw [monitorPayment_timers_none s id cb st _ hme] at ht
      by_cases hh : h = s.nextHandle
      · rw [if_pos hh] at ht
        obtain rfl := Option.some.inj ht
        refine ⟨{ paymentId := id, callbackUrl := cb, lastStatus := st,
                  pollInterval := s.nextHandle }, ?_, hh.symm⟩
        rw [monitorPayment_registry, if_pos rfl]
      · rw [if_neg hh] at ht
        obtain ⟨m, hm, hmp⟩ := inv.timer_reg h t ht hact
        by_cases hpid : t.paymentId = id
        · rw [hpid, hme] at hm
          cases hm
        · refine ⟨m, ?_, hmp⟩
          rw [monitorPayment_registry, if_neg hpid]
          exact hm
    | some existing =>
      rw [monitorPayment_timers_some s id cb st _ existing hme] at ht
      by_cases hh : h = s.nextHandle
      · rw [if_pos hh] at ht
        obtain rfl := Option.some.inj ht
        refine ⟨{ paymentId := id, callbackUrl := cb, lastStatus := st,
                  pollInterval := s.nextHandle }, ?_, hh.symm⟩
        rw [monitorPayment_registry, if_pos rfl]
      · rw [if_neg hh] at ht
        by_cases hpe : h = existing.pollInterval
        · exfalso
          rw [if_pos hpe] at ht
          cases hte : s.timers existing.pollInterval with
          | none => rw [hte] at ht; cases ht
          | some t0 =>
            rw [hte] at ht
            obtain rfl := Option.some.inj ht
            exact Bool.noConfusion hact
        · rw [if_neg hpe] at ht
          obtain ⟨m, hm, hmp⟩ := inv.timer_reg h t ht hact
          by_cases hpid : t.paymentId = id
          · exfalso
            rw [hpid, hme] at hm
            obtain rfl := Option.some.inj hm
            exact hpe hmp.symm
          · refine ⟨m, ?_, hmp⟩
            rw [monitorPayment_registry, if_neg hpid]
            exact hm
  · intro h t ht
    rw [monitorPayment_nextHandle]
    cases hme : s.monitoredPayments id with
    | none =>
      rw [monitorPayment_timers_none s id cb st _ hme] at ht
      by_cases hh : h = s.nextHandle
      · omega
      · rw [if_neg hh] at ht
        have := inv.handle_lt h t ht
        omega
    | some existing =>
      rw [monitorPayment_timers_some s id cb st _ existing hme] at ht
      by_cases hh : h = s.nextHandle
      · omega
      · rw [if_neg hh] at ht
        by_cases hpe : h = existing.pollInterval
        · rw [if_pos hpe] at ht
          cases hte : s.timers existing.pollInterval with
          | none => rw [hte] at ht; cases ht
          | some t0 =>
            have := inv.handle_lt existing.pollInterval t0 hte
            omega
        · rw [if_neg hpe] at ht
          have := inv.handle_lt h t ht
          omega

/-- After `monitorPayment`, the registry holds exactly the new entry for the
id and the fresh handle is the unique live poll timer for the id. -/
theorem monitorPayment_unique {s : FacilitatorState} (inv : MonInv s)
    (id cb : String) (st : PaymentStatus) :
    (monitorPayment s id cb st).monitoredPayments id =
      some { paymentId := id, callbackUrl := cb, lastStatus := st,
             pollInterval := s.nextHandle } ∧
    isActiveFor (monitorPayment s id cb st) id s.nextHandle ∧
    (∀ h, isActiveFor (monitorPayment s id cb st) id h → h = s.nextHandle) := by
  refine ⟨by rw [monitorPayment_registry, if_pos rfl], ?_, ?_⟩
  · unfold isActiveFor
    cases hme : s.monitoredPayments id with
    | none =>
      rw [monitorPayment_timers_none s id cb st _ hme, if_pos rfl]
      exact ⟨_, rfl, rfl, rfl⟩
    | some existing =>
      rw [monitorPayment_timers_some s id cb st _ existing hme, if_pos rfl]
      exact ⟨_, rfl, rfl, rfl⟩
  · rintro h ⟨t, ht, hact, hpid⟩
    by_cases hh : h = s.nextHandle
    · exact hh
    · exfalso
      cases hme : s.monitoredPayments id with
      | none =>
        rw [monitorPayment_timers_none s id cb st _ hme, if_neg hh] at ht
        obtain ⟨m, hm, hmp⟩ := inv.timer_reg h t ht hact
        rw [hpid, hme] at hm
        cases hm
      | some existing =>
        rw [monitorPayment_timers_some s id cb st _ existing hme, if_neg hh] at ht
        by_cases hpe : h = existing.pollInterval
        · rw [if_pos hpe] at ht
          cases hte : s.timers existing.pollInterval with
          | none => rw [hte] at ht; cases ht
          | some t0 =>
            rw [hte] at ht
            obtain rfl := Option.some.inj ht
            exact Bool.noConfusion hact
        · rw [if_neg hpe] at ht
          obtain ⟨m, hm, hmp⟩ := inv.timer_reg h t ht hact
          rw [hpid, hme] at hm
          obtain rfl := Option.some.inj hm
          exact hpe hmp.symm


theorem pollTick_terminal_eq {s : FacilitatorState} (h : Nat) (t : PollTimer)
    (st : PaymentStatus) (m : MonitoredPayment)
    (ht : s.timers h = some t) (hact : t.active = true)
    (hterm : isTerminal st = true) (hne : ¬(st = t.lastStatus))
    (hm : s.monitoredPayments t.paymentId = some m) :
    pollTick s h (some st) =
      ({ monitoredPayments := fun id =>
           if id = t.paymentId then none else s.monitoredPayments id,
         timers := fun h2 =>
           if h2 = m.pollInterval then
             (if m.pollInterval = h then some { t with lastStatus := st }
              else s.timers m.pollInterval).map (fun t2 => { t2 with active := false })
           else if h2 = h then some { t with lastStatus := st } else s.timers h2,
         nextHandle := s.nextHandle },
       [{ url := t.callbackUrl, paymentId := t.paymentId, status := st }]) := by
  unfold pollTick clearIntervalH
  rw [ht]
  simp only [hact, Bool.true_eq_false, if_false, eq_false hne, hterm, eq_self_iff_true,
    if_true, hm]

theorem pollTick_terminal {s : FacilitatorState} (inv : MonInv s) (h : Nat)
    (t : PollTimer) (st : PaymentStatus)
    (ht : s.timers h = some t) (hact : t.active = true)
    (hterm : isTerminal st = true) (hne : ¬(st = t.lastStatus)) :
    (pollTick s h (some st)).1.monitoredPayments t.paymentId = none ∧
    (∀ h2, ¬ isActiveFor (pollTick s h (some st)).1 t.paymentId h2) ∧
    (pollTick s h (some st)).2 =
      [{ url := t.callbackUrl, paymentId := t.paymentId, status := st }] := by
  obtain ⟨m, hm, hmp⟩ := inv.timer_reg h t ht hact
  have huniq : ∀ h2 t2, s.timers h2 = some t2 → t2.active = true →
      t2.paymentId = t.paymentId → h2 = h := by
    intro h2 t2 ht2 hact2 hpid2
    obtain ⟨m2, hm2, hmp2⟩ := inv.timer_reg h2 t2 ht2 hact2
    rw [hpid2, hm] at hm2
    obtain rfl := Option.some.inj hm2
    rw [← hmp2, hmp]
  have heq := pollTick_terminal_eq h t st m ht hact hterm hne hm
  rw [heq]
  refine ⟨by simp, ?_, rfl⟩
  rintro h2 ⟨t2, ht2, hact2, hpid2⟩
  have ht2' : (if h2 = m.pollInterval then
      (if m.pollInterval = h then some { t with lastStatus := st }
       else s.timers m.pollInterval).map (fun t2 => { t2 with active := false })
     else if h2 = h then some { t with lastStatus := st } else s.timers h2) = some t2 := ht2
  by_cases hh2 : h2 = m.pollInterval
  · rw [if_pos hh2, if_pos hmp] at ht2'
    obtain rfl := Option.some.inj ht2'
    exact Bool.noConfusion hact2
  · rw [if_neg hh2] at ht2'
    by_cases hh : h2 = h
    · rw [hmp] at hh2
      exact hh2 hh
    · rw [if_neg hh] at ht2'
      exact hh (huniq h2 t2 ht2' hact2 hpid2)

theorem pollTick_no_timer (s : FacilitatorState) (h : Nat)
    (observed : Option PaymentStatus) (ht : s.timers h = none) :
    pollTick s h observed = (s, []) := by
  unfold pollTick
  rw [ht]

theorem pollTick_inactive (s : FacilitatorState) (h : Nat)
    (observed : Option PaymentStatus) (t : PollTimer)
    (ht : s.timers h = some t) (hact : t.active = false) :
    pollTick s h observed = (s, []) := by
  unfold pollTick
  rw [ht]
  simp only [hact, eq_self_iff_true, if_true]

theorem pollTick_obs_none (s : FacilitatorState) (h : Nat) (t : PollTimer)
    (ht : s.timers h = some t) (hact : t.active = true) :
    pollTick s h none = (s, []) := by
  unfold pollTick
  rw [ht]
  simp only [hact, Bool.true_eq_false, if_false]

theorem pollTick_unchanged (s : FacilitatorState) (h : Nat) (t : PollTimer)
    (st : PaymentStatus) (ht : s.timers h = some t) (hact : t.active = true)
    (hst : st = t.lastStatus) :
    pollTick s h (some st) = (s, []) := by
  unfold pollTick
  rw [ht]
  simp only [hact, Bool.true_eq_false, if_false, hst, eq_self_iff_true, if_true]

theorem pollTick_snd_changed (s : FacilitatorState) (h : Nat) (t : PollTimer)
    (st : PaymentStatus) (ht : s.timers h = some t) (hact : t.active = true)
    (hst : ¬(st = t.lastStatus)) :
    (pollTick s h (some st)).2 =
      [{ url := t.callbackUrl, paymentId := t.paymentId, status := st }] := by
  unfold pollTick
  rw [ht]
  simp only [hact, Bool.true_eq_false, if_false, eq_false hst]
  by_cases hterm : isTerminal st = true
  · rw [if_pos hterm]
  · rw [if_neg hterm]

theorem pollTick_webhook_src (s : FacilitatorState) (h : Nat)
    (observed : Option PaymentStatus) (ev : WebhookEvent)
    (hev : ev ∈ (pollTick s h observed).2) :
    ∃ t, s.timers h = some t ∧ t.active = true ∧ ev.paymentId = t.paymentId := by
  cases ht : s.timers h with
  | none =>
    rw [pollTick_no_timer s h observed ht] at hev
    cases hev
  | some t =>
    by_cases hact : t.active = false
    · rw [pollTick_inactive s h observed t ht hact] at hev
      cases hev
    · have hact' : t.active = true := by
        cases hA : t.active
        · exact absurd hA hact
        · rfl
      cases observed with
      | none =>
        rw [pollTick_obs_none s h t ht hact'] at hev
        cases hev
      | some st =>
        by_cases hst : st = t.lastStatus
        · rw [pollTick_unchanged s h t st ht hact' hst] at hev
          cases hev
        · rw [pollTick_snd_changed s h t st ht hact' hst] at hev
          rw [List.mem_singleton] at hev
          rw [hev]
          exact ⟨t, rfl, hact', rfl⟩


/-- C8 (amended): (1) starting monitoring twice for the same paymentId
leaves exactly one registry entry for it and exactly one live poll handle
— the fresh one; the handle installed by the first start is no longer
live.  (2) Whenever a poll tick observes a terminal status (CLAIMED or
REFUNDED) that *differs* from the closure's last observed status, the
poll handle is cancelled, the registry entry is removed, exactly that one
webhook is emitted, and no later tick can fire a webhook for that id.
(The source performs the terminal cleanup only inside its
status-changed branch; see the counterexample for the unconditional
reading of the claim.) -/
theorem claim_C8_monitor_lifecycle :
    (∀ (s : FacilitatorState), MonInv s →
      ∀ (id cb1 cb2 : String) (st1 st2 : PaymentStatus),
      (monitorPayment (monitorPayment s id cb1 st1) id cb2 st2).monitoredPayments id =
        some { paymentId := id, callbackUrl := cb2, lastStatus := st2,
               pollInterval := s.nextHandle + 1 } ∧
      isActiveFor (monitorPayment (monitorPayment s id cb1 st1) id cb2 st2) id
        (s.nextHandle + 1) ∧
      (∀ h, isActiveFor (monitorPayment (monitorPayment s id cb1 st1) id cb2 st2) id h →
        h = s.nextHandle + 1) ∧
      ¬ isActiveFor (monitorPayment (monitorPayment s id cb1 st1) id cb2 st2) id
        s.nextHandle) ∧
    (∀ (s : FacilitatorState), MonInv s → ∀ (h : Nat) (t : PollTimer) (st : PaymentStatus),
      s.timers h = some t → t.active = true → isTerminal st = true →
      ¬(st = t.lastStatus) →
      (pollTick s h (some st)).1.monitoredPayments t.paymentId = none ∧
      (∀ h2, ¬ isActiveFor (pollTick s h (some st)).1 t.paymentId h2) ∧
      (pollTick s h (some st)).2 =
        [{ url := t.callbackUrl, paymentId := t.paymentId, status := st }] ∧
      (∀ h2 obs ev, ev ∈ (pollTick (pollTick s h (some st)).1 h2 obs).2 →
        ¬(ev.paymentId = t.paymentId))) := by
  constructor
  · intro s inv id cb1 cb2 st1 st2
    have inv1 := monInv_monitorPayment inv id cb1 st1
    have hu := monitorPayment_unique inv1 id cb2 st2
    have hnh : (monitorPayment s id cb1 st1).nextHandle = s.nextHandle + 1 :=
      monitorPayment_nextHandle s id cb1 st1
    rw [hnh] at hu
    refine ⟨hu.1, hu.2.1, hu.2.2, fun habs => ?_⟩
    have := hu.2.2 s.nextHandle habs
    omega
  · intro s inv h t st ht hact hterm hne
    obtain ⟨hreg, hnoact, hsnd⟩ := pollTick_terminal inv h t st ht hact hterm hne
    refine ⟨hreg, hnoact, hsnd, ?_⟩
    intro h2 obs ev hev hpid
    obtain ⟨t2, ht2, hact2, hpid2⟩ := pollTick_webhook_src _ h2 obs ev hev
    exact hnoact h2 ⟨t2, ht2, hact2, by rw [← hpid2, hpid]⟩

theorem claim_C8_witness :
    (monitorPayment (monitorPayment emptyFacilitatorState "p1" "cb1" PaymentStatus.PENDING)
      "p1" "cb2" PaymentStatus.PENDING).monitoredPayments "p1" =
      some { paymentId := "p1", callbackUrl := "cb2", lastStatus := PaymentStatus.PENDING,
             pollInterval := 1 } ∧
    ¬ isActiveFor (monitorPayment
        (monitorPayment emptyFacilitatorState "p1" "cb1" PaymentStatus.PENDING)
        "p1" "cb2" PaymentStatus.PENDING) "p1" 0 :=
  ⟨(claim_C8_monitor_lifecycle.1 emptyFacilitatorState monInv_empty "p1" "cb1" "cb2"
      PaymentStatus.PENDING PaymentStatus.PENDING).1,
   (claim_C8_monitor_lifecycle.1 emptyFacilitatorState monInv_empty "p1" "cb1" "cb2"
      PaymentStatus.PENDING PaymentStatus.PENDING).2.2.2⟩

/-- C8 falsified as stated: monitoring an already-claimed payment (initial
status CLAIMED) and then observing CLAIMED on a tick leaves the registry
entry present, the poll handle live, and fires no webhook — because the
source only cancels and removes inside its "status changed" branch.  The
claim asserts that every tick observing CLAIMED or REFUNDED cancels the
handle and removes the entry. -/
theorem claim_C8_counterexample :
    ((pollTick (monitorPayment emptyFacilitatorState "p1" "cb" PaymentStatus.CLAIMED) 0
      (some PaymentStatus.CLAIMED)).1.monitoredPayments "p1").isSome = true ∧
    ((pollTick (monitorPayment emptyFacilitatorState "p1" "cb" PaymentStatus.CLAIMED) 0
      (some PaymentStatus.CLAIMED)).1.timers 0).map PollTimer.active = some true ∧
    (pollTick (monitorPayment emptyFacilitatorState "p1" "cb" PaymentStatus.CLAIMED) 0
      (some PaymentStatus.CLAIMED)).2 = [] := by
  refine ⟨rfl, rfl, rfl⟩

end Paybot
